import Mathlib

/-
Verification of the TalkTwin dual-persona dialogue simulator.

Shallow embedding of the repository code (src/convo/dialog.py,
src/convo/interface_dilogue.py, src/convo/main.py).  Python strings are
Lean String, Python message dicts become the Msg structure, the result
dict of the fallback generator becomes DialogueResult, and fallible
Python code (IndexError, provider exceptions) returns Option.  The
turn-taking loop itself lives in the external autogen library, so it is
modelled from the specification (section 4.1 and 4.3 of spec.md); every
definition taken from the repository source carries a comment naming the
source location.
-/

namespace TalkTwin

/-- A message dict as built by the repository: role, optional name
(the system placeholder message of the fallback path has no name key),
and content. -/
structure Msg where
  role : String
  name : Option String
  content : String
deriving DecidableEq, Repr

/-- The result dict returned by generate_dialogue_fallback in
src/convo/interface_dilogue.py line 219: a record with a messages list. -/
structure DialogueResult where
  messages : List Msg
deriving DecidableEq, Repr

/-- A turn of the spec data model (spec.md section 3): speaker identity
and text content. -/
structure Turn where
  speaker : String
  content : String
deriving DecidableEq, Repr

/-- Per-character lowercasing, modelling the Python str.lower calls in
src/convo/dialog.py lines 38-39. -/
def lowerStr (s : String) : String :=
  String.mk (s.data.map Char.toLower)

/-- Decides whether the first list is a prefix of the second, by
character comparison.  Helper for the substring test below. -/
def isPrefixList : List Char → List Char → Bool
  | [], _ => true
  | _ :: _, [] => false
  | a :: as, b :: bs => a = b && isPrefixList as bs

/-- Decides whether needle occurs as a contiguous sublist of hay,
modelling the Python substring operator used as
needle in hay in src/convo/dialog.py line 39. -/
def containsSub (needle : List Char) : List Char → Bool
  | [] => needle.isEmpty
  | c :: rest => isPrefixList needle (c :: rest) || containsSub needle rest

/-- String-level substring test: does hay contain needle. -/
def strContains (hay needle : String) : Bool :=
  containsSub needle.data hay.data

/-- From src/convo/dialog.py lines 38-39: the ContentMatch termination
predicate, Python termination_condition.lower() in msg content lower(). -/
def is_termination_msg (termination_condition content : String) : Bool :=
  containsSub (lowerStr termination_condition).data (lowerStr content).data

/-- From src/convo/interface_dilogue.py lines 110-115: the TurnBound
termination closure.  The Python closure mutates a counter; here the
counter is passed and returned explicitly: it is incremented on every
call and the call reports whether the incremented counter has reached
the configured maximum. -/
def is_max_turns_reached (maxTurns count : Nat) : Nat × Bool :=
  (count + 1, decide (maxTurns ≤ count + 1))

/-- The two termination-predicate variants of spec.md section 4.3. -/
inductive TerminationPredicate where
  | ContentMatch (phrase : String)
  | TurnBound (n : Nat)

/-- Evaluates the active termination predicate on the latest turn,
threading the turn counter.  ContentMatch uses is_termination_msg from
src/convo/dialog.py; TurnBound uses is_max_turns_reached from
src/convo/interface_dilogue.py. -/
def evalPredicate : TerminationPredicate → Turn → Nat → Nat × Bool
  | TerminationPredicate.ContentMatch phrase, t, count =>
      (count, is_termination_msg phrase t.content)
  | TerminationPredicate.TurnBound n, _, count =>
      is_max_turns_reached n count

/-- Modelled from the spec: the turn loop is executed by the external
autogen library (ConversableAgent.initiate_chat), not by repository
code, so it is rendered from spec.md section 4.1: turns are appended
one at a time, speakers alternating by turn parity between participant
A (even indices) and participant B (odd indices); after each turn is
appended the termination predicate is evaluated against it and the loop
stops at the first true answer.  The reply oracle gives the text of
each turn; fuel bounds the loop so that the function is total. -/
def driverLoop (A B : String) (reply : Nat → String)
    (pred : TerminationPredicate) (idx count fuel : Nat) : List Turn :=
  match fuel with
  | 0 => []
  | Nat.succ fuel1 =>
    let t : Turn := ⟨if idx % 2 = 0 then A else B, reply idx⟩
    let r := evalPredicate pred t count
    if r.2 then [t] else t :: driverLoop A B reply pred (idx + 1) r.1 fuel1

/-- Modelled from the spec (spec.md section 4.1): a dialogue session
starts with the starter line as turn 0 attributed to participant A and
then runs the driver loop; the starter turn is always emitted. -/
def run_dialogue (A B starter : String) (reply : Nat → String)
    (pred : TerminationPredicate) (fuel : Nat) : List Turn :=
  driverLoop A B (fun i => if i = 0 then starter else reply i) pred 0 0 (fuel + 1)

/-- Splits a list of characters on runs of whitespace, dropping empty
pieces, modelling Python str.split() with no argument as used on the
situation string in src/convo/interface_dilogue.py lines 187-189 and
208.  The accumulator holds the current word reversed. -/
def pySplitAux : List Char → List Char → List (List Char)
  | [], [] => []
  | [], acc => [acc.reverse]
  | c :: cs, acc =>
    if c.isWhitespace then
      match acc with
      | [] => pySplitAux cs []
      | _ :: _ => acc.reverse :: pySplitAux cs []
    else pySplitAux cs (c :: acc)

/-- Python situation.split(): the whitespace-separated words of a
string. -/
def pySplit (s : String) : List String :=
  (pySplitAux s.data []).map (fun cs => String.mk cs)

/-- The system placeholder note inserted by the fallback generator,
src/convo/interface_dilogue.py line 201. -/
def placeholderNote : String :=
  "This is a placeholder dialogue. To generate real dialogues, please configure your API keys properly."

/-- From src/convo/interface_dilogue.py lines 186-190: the three starter
templates among which random.choice picks; w is the first word of the
situation (situation.split()[0]). -/
def starterOption (choice : Fin 3) (character2_name w : String) : String :=
  match choice with
  | 0 => "Hello " ++ character2_name ++ ", I wanted to talk about " ++ w ++ "..."
  | 1 => "Hey " ++ character2_name ++ ", do you have a moment? I need to discuss " ++ w ++ "."
  | 2 => "Hi " ++ character2_name ++ "! I\x27ve been thinking about " ++ w ++ "."

/-- From src/convo/interface_dilogue.py lines 180-219: the local
fallback generator.  The call random.choice(starter_options) is
modelled by the explicit choice argument; the three starter templates
are built eagerly, so situation.split()[0] is evaluated before the
choice, and a situation with no whitespace-separated word raises
IndexError, modelled as none.  The max_turns argument is accepted and
unused, as in the source. -/
def generate_dialogue_fallback (character1_name character2_name situation : String)
    (_max_turns : Nat) (choice : Fin 3) : Option DialogueResult :=
  match pySplit situation with
  | [] => none
  | w :: _ =>
    some ⟨[
      ⟨"assistant", some character1_name, starterOption choice character2_name w⟩,
      ⟨"system", none, placeholderNote⟩,
      ⟨"assistant", some character2_name,
        "Hi " ++ character1_name ++ "! Sure, what about " ++ w ++ " did you want to discuss?"⟩,
      ⟨"assistant", some character1_name,
        "Well, regarding " ++ situation ++ ", I was hoping we could work through it together."⟩]⟩

/-- From src/convo/interface_dilogue.py lines 240-241: the branch of
extract_messages for the fallback dict, which returns its messages list
unchanged. -/
def extract_messages (d : DialogueResult) : List Msg :=
  d.messages

/-- From src/convo/interface_dilogue.py lines 248-255: the branch of
extract_messages that normalises one autogen chat-history entry into a
message dict with role assistant, the sender name and the content.
Genuine provider-generated turns reach the caller in exactly this
shape. -/
def autogen_entry_to_msg (sender_name content : String) : Msg :=
  ⟨"assistant", some sender_name, content⟩

/-- From src/convo/interface_dilogue.py lines 221-235: generate_dialogue
tries the autogen path first and, when that path fails (returns None or
raises), substitutes the result of generate_dialogue_fallback for the
whole session.  The outcome of the external autogen path is abstracted
as an Option-valued input: none models both a missing configuration and
a raised provider error. -/
def generate_dialogue (autogenResult : Option DialogueResult)
    (character1_name character2_name situation : String)
    (max_turns : Nat) (choice : Fin 3) : Option DialogueResult :=
  match autogenResult with
  | some d => some d
  | none => generate_dialogue_fallback character1_name character2_name situation max_turns choice

/-- From src/convo/dialog.py lines 24-71: create_dialogue wires the two
agents and calls initiate_chat with no exception handling and no
fallback path; the outcome of the external chat is abstracted as an
Option-valued input (none models a raised provider error) and is
returned unhandled, so a failure aborts the whole session. -/
def create_dialogue (autogenResult : Option DialogueResult) : Option DialogueResult :=
  autogenResult

/-- From src/convo/interface_dilogue.py lines 370-373: the speaker label
of a message, the name for assistant messages (Unknown when absent) and
the role otherwise. -/
def speakerOf (m : Msg) : String :=
  if m.role = "assistant" then m.name.getD "Unknown" else m.role

/-- One rendered line of the text export,
src/convo/interface_dilogue.py line 375. -/
def renderLine (m : Msg) : String :=
  speakerOf m ++ ": " ++ m.content ++ "\n\n"

/-- From src/convo/interface_dilogue.py lines 365-375: the loop body of
format_dialogue_text, skipping system messages and appending one
rendered line per remaining message. -/
def format_dialogue_text_body : List Msg → String
  | [] => ""
  | m :: ms =>
    if m.role = "system" then format_dialogue_text_body ms
    else renderLine m ++ format_dialogue_text_body ms

/-- From src/convo/interface_dilogue.py lines 357-377:
format_dialogue_text builds a header naming the characters and the
situation and then one speaker: content line per non-system message. -/
def format_dialogue_text (msgs : List Msg)
    (character1_name character2_name situation : String) : String :=
  "Dialogue between " ++ character1_name ++ " and " ++ character2_name ++ "\n"
    ++ "Situation: " ++ situation ++ "\n\n"
    ++ format_dialogue_text_body msgs

/-- Concatenation of rendered pieces; spec-side helper used to state
what the text rendering contains. -/
def concatMap (f : α → String) : List α → String
  | [] => ""
  | a :: l => f a ++ concatMap f l

/-- From src/convo/dialog.py lines 243-245: the loop body of
format_dialogue.  Every message is rendered, system messages included;
for an assistant message the sender is message name, a direct dict
index that raises KeyError when the key is absent, modelled as none. -/
def format_dialogue_aux : List Msg → Option String
  | [] => some ""
  | m :: ms =>
    let senderOpt := if m.role = "assistant" then m.name else some m.role
    match senderOpt, format_dialogue_aux ms with
    | some sender, some rest => some (sender ++ ": " ++ m.content ++ "\n\n" ++ rest)
    | _, _ => none

/-- From src/convo/dialog.py lines 239-247: format_dialogue renders the
full dialogue, one line per message with no elision of system
messages. -/
def format_dialogue (msgs : List Msg) : Option String :=
  (format_dialogue_aux msgs).map (fun body => "\nFULL DIALOGUE:\n\n" ++ body)

/-- JSON values, for the structured export of
src/convo/interface_dilogue.py lines 333-355. -/
inductive Json where
  | null : Json
  | str : String → Json
  | num : Int → Json
  | arr : List Json → Json
  | obj : List (String × Json) → Json

/-- Serialisation of one message dict as json.dump renders it: a role
field, a name field only when the dict has a name key, and a content
field. -/
def msgToJson (m : Msg) : Json :=
  Json.obj ([("role", Json.str m.role)]
    ++ (match m.name with
        | some n => [("name", Json.str n)]
        | none => [])
    ++ [("content", Json.str m.content)])

/-- From src/convo/interface_dilogue.py lines 344-350: the structured
export record with character1, character2, situation, timestamp and the
ordered message list, as serialised by save_dialogue_to_file. -/
def saveRecord (character1 character2 situation timestamp : String)
    (msgs : List Msg) : Json :=
  Json.obj [
    ("character1", Json.str character1),
    ("character2", Json.str character2),
    ("situation", Json.str situation),
    ("timestamp", Json.str timestamp),
    ("messages", Json.arr (msgs.map msgToJson))]

/-- Field lookup in a JSON object, first occurrence of the key. -/
def lookupField (fields : List (String × Json)) (key : String) : Option Json :=
  match fields with
  | [] => none
  | p :: ps => if p.1 = key then some p.2 else lookupField ps key

/-- Modelled from the spec: the repository has no parsing code, so the
parser of the structured export format is rendered from the spec words
(spec.md section 8, round-trip) over the same JSON value shape the
serialiser emits: a message object yields its role, optional name and
content. -/
def parseMsg : Json → Option Msg
  | Json.obj fields =>
    match lookupField fields "role", lookupField fields "content" with
    | some (Json.str r), some (Json.str c) =>
      some ⟨r,
        (match lookupField fields "name" with
         | some (Json.str n) => some n
         | _ => none), c⟩
    | _, _ => none
  | _ => none

/-- Modelled from the spec: parses a list of serialised messages,
failing if any element fails. -/
def parseMsgs : List Json → Option (List Msg)
  | [] => some []
  | j :: js =>
    match parseMsg j, parseMsgs js with
    | some m, some ms => some (m :: ms)
    | _, _ => none

/-- Modelled from the spec: parses the ordered turn list back out of a
structured export record. -/
def parseTranscript : Json → Option (List Msg)
  | Json.obj fields =>
    match lookupField fields "messages" with
    | some (Json.arr js) => parseMsgs js
    | _ => none
  | _ => none

theorem isPrefixList_iff (n : List Char) :
    ∀ h, isPrefixList n h = true ↔ ∃ t, h = n ++ t := by
  induction n with
  | nil =>
    intro h
    simp [isPrefixList]
  | cons a as ih =>
    intro h
    cases h with
    | nil => simp [isPrefixList]
    | cons b bs =>
      simp only [isPrefixList, Bool.and_eq_true, decide_eq_true_eq, ih]
      constructor
      · rintro ⟨hab, t, ht⟩
        exact ⟨t, by simp [hab, ht]⟩
      · rintro ⟨t, ht⟩
        injection ht with h1 h2
        exact ⟨h1.symm, t, h2⟩

theorem containsSub_iff (n : List Char) :
    ∀ h, containsSub n h = true ↔ ∃ pre post, h = pre ++ n ++ post := by
  intro h
  induction h with
  | nil =>
    cases n with
    | nil => simp [containsSub, List.isEmpty]
    | cons a as => simp [containsSub, List.isEmpty]
  | cons c rest ih =>
    simp only [containsSub, Bool.or_eq_true, isPrefixList_iff, ih]
    constructor
    · rintro (⟨t, ht⟩ | ⟨pre, post, hp⟩)
      · exact ⟨[], t, by simp [ht]⟩
      · exact ⟨c :: pre, post, by simp [hp]⟩
    · rintro ⟨pre, post, hp⟩
      cases pre with
      | nil =>
        exact Or.inl ⟨post, by simpa using hp⟩
      | cons c1 pre1 =>
        injection hp with h1 h2
        exact Or.inr ⟨pre1, post, h2⟩

theorem map_eq_append_decomp {α β : Type} (f : α → β) :
    ∀ (s : List β) (l : List α) (t : List β), l.map f = s ++ t →
      ∃ s1 t1, l = s1 ++ t1 ∧ s1.map f = s ∧ t1.map f = t := by
  intro s
  induction s with
  | nil =>
    intro l t hl
    exact ⟨[], l, by simpa using hl⟩
  | cons b bs ih =>
    intro l t hl
    cases l with
    | nil => simp at hl
    | cons a l1 =>
      simp only [List.map_cons, List.cons_append] at hl
      injection hl with h1 h2
      obtain ⟨s1, t1, hsplit, hs1, ht1⟩ := ih l1 t h2
      exact ⟨a :: s1, t1, by simp [hsplit], by simp [h1, hs1], ht1⟩

/-- C3: for every termination phrase and every turn text, the
content-match termination predicate is_termination_msg returns true
exactly when the phrase occurs as a substring of the text compared
case-insensitively (there is a decomposition of the text whose middle
piece equals the phrase after lowercasing both); moreover the result
depends only on the lowercasings of the two inputs, so it is unchanged
when the letter case of the phrase or of the text changes. -/
theorem is_termination_msg_spec :
    (∀ p t, is_termination_msg p t = true ↔
      ∃ pre mid post, t.data = pre ++ mid ++ post ∧
        mid.map Char.toLower = p.data.map Char.toLower)
    ∧ (∀ p1 p2 t1 t2, lowerStr p1 = lowerStr p2 → lowerStr t1 = lowerStr t2 →
        is_termination_msg p1 t1 = is_termination_msg p2 t2) := by
  constructor
  · intro p t
    show containsSub (p.data.map Char.toLower) (t.data.map Char.toLower) = true ↔ _
    rw [containsSub_iff]
    constructor
    · rintro ⟨pre, post, hp⟩
      rw [List.append_assoc] at hp
      obtain ⟨s1, rem, hsplit1, hs1, hrem⟩ :=
        map_eq_append_decomp Char.toLower pre (t.data)
          (p.data.map Char.toLower ++ post) hp
      obtain ⟨mid, post1, hsplit2, hmid, hpost1⟩ :=
        map_eq_append_decomp Char.toLower (p.data.map Char.toLower) rem post hrem
      refine ⟨s1, mid, post1, ?_, hmid⟩
      rw [hsplit1, hsplit2, List.append_assoc]
    · rintro ⟨pre, mid, post, hsplit, hmid⟩
      exact ⟨pre.map Char.toLower, post.map Char.toLower, by
        simp [hsplit, hmid]⟩
  · intro p1 p2 t1 t2 hp ht
    show containsSub (lowerStr p1).data (lowerStr t1).data
        = containsSub (lowerStr p2).data (lowerStr t2).data
    rw [hp, ht]

theorem is_termination_msg_spec_witness :
    is_termination_msg "OK" "It is OK" = is_termination_msg "ok" "IT IS ok" :=
  is_termination_msg_spec.2 "OK" "ok" "It is OK" "IT IS ok" (by decide) (by decide)

theorem driverLoop_turnBound_length (A B : String) (r : Nat → String) (N : Nat) :
    ∀ fuel idx count,
      (driverLoop A B r (TerminationPredicate.TurnBound N) idx count fuel).length
        ≤ N - count + 1 := by
  intro fuel
  induction fuel with
  | zero =>
    intro idx count
    simp [driverLoop]
  | succ fuel ih =>
    intro idx count
    by_cases h : N ≤ count + 1
    · simp [driverLoop, evalPredicate, is_max_turns_reached, h]
    · have h2 := ih (idx + 1) (count + 1)
      simp [driverLoop, evalPredicate, is_max_turns_reached, h]
      omega

/-- C1: for every dialogue session configured with the TurnBound
maximum-turn bound N, the returned transcript contains at most N turns
after the starter turn, for every reply oracle and every fuel: the
driver stops once the counter maintained by is_max_turns_reached
reaches N, so the transcript length is at most N plus the starter. -/
theorem run_dialogue_turnBound_length (A B starter : String) (reply : Nat → String)
    (N fuel : Nat) :
    (run_dialogue A B starter reply (TerminationPredicate.TurnBound N) fuel).length
      ≤ N + 1 := by
  have h := driverLoop_turnBound_length A B
    (fun i => if i = 0 then starter else reply i) N (fuel + 1) 0 0
  simpa [run_dialogue] using h

theorem driverLoop_contentMatch_match_is_last (A B : String) (r : Nat → String)
    (phrase : String) :
    ∀ fuel idx count pre t post,
      driverLoop A B r (TerminationPredicate.ContentMatch phrase) idx count fuel
        = pre ++ t :: post →
      is_termination_msg phrase t.content = true → post = [] := by
  intro fuel
  induction fuel with
  | zero =>
    intro idx count pre t post hsplit hmatch
    have h0 := congrArg List.length hsplit
    simp only [driverLoop, List.length_nil, List.length_append, List.length_cons] at h0
    omega
  | succ fuel ih =>
    intro idx count pre t post hsplit hmatch
    by_cases hm : is_termination_msg phrase (r idx) = true
    · have hrw : driverLoop A B r (TerminationPredicate.ContentMatch phrase) idx count
          (fuel + 1) = [⟨if idx % 2 = 0 then A else B, r idx⟩] := by
        simp [driverLoop, evalPredicate, hm]
      rw [hrw] at hsplit
      cases pre with
      | nil =>
        injection hsplit with h1 h2
        exact h2.symm
      | cons p0 pre1 =>
        injection hsplit with h1 h2
        have h0 := congrArg List.length h2
        simp only [List.length_nil, List.append_eq, List.length_append,
          List.length_cons] at h0
        omega
    · have hrw : driverLoop A B r (TerminationPredicate.ContentMatch phrase) idx count
          (fuel + 1) = ⟨if idx % 2 = 0 then A else B, r idx⟩ ::
            driverLoop A B r (TerminationPredicate.ContentMatch phrase) (idx + 1)
              count fuel := by
        simp [driverLoop, evalPredicate, hm]
      rw [hrw] at hsplit
      cases pre with
      | nil =>
        injection hsplit with h1 h2
        rw [← h1] at hmatch
        simp only [] at hmatch
        exact absurd hmatch hm
      | cons p0 pre1 =>
        injection hsplit with h1 h2
        exact ih (idx + 1) count pre1 t post h2 hmatch

/-- C2: for every session configured with the ContentMatch termination
phrase, the transcript ends at a turn whose text contains the phrase
case-insensitively: whenever the transcript decomposes around a turn
whose text satisfies is_termination_msg, the part after that turn is
empty, so no turn follows a matching turn and the first matching turn
is the last turn of the transcript. -/
theorem run_dialogue_contentMatch_ends_at_match (A B starter : String)
    (reply : Nat → String) (phrase : String) (fuel : Nat) (pre : List Turn)
    (t : Turn) (post : List Turn)
    (hsplit : run_dialogue A B starter reply
        (TerminationPredicate.ContentMatch phrase) fuel = pre ++ t :: post)
    (hmatch : is_termination_msg phrase t.content = true) : post = [] :=
  driverLoop_contentMatch_match_is_last A B
    (fun i => if i = 0 then starter else reply i) phrase (fuel + 1) 0 0 pre t post
    hsplit hmatch

theorem run_dialogue_contentMatch_ends_at_match_witness : ([] : List Turn) = [] :=
  run_dialogue_contentMatch_ends_at_match "T" "S" "hello"
    (fun i => if i == 2 then "ok bye" else "mm") "BYE" 5
    [⟨"T", "hello"⟩, ⟨"S", "mm"⟩] ⟨"T", "ok bye"⟩ [] (by decide) (by decide)

theorem driverLoop_speaker (A B : String) (r : Nat → String)
    (pred : TerminationPredicate) :
    ∀ fuel idx count i t,
      (driverLoop A B r pred idx count fuel).get? i = some t →
      t.speaker = if (idx + i) % 2 = 0 then A else B := by
  intro fuel
  induction fuel with
  | zero =>
    intro idx count i t ht
    simp [driverLoop] at ht
  | succ fuel ih =>
    intro idx count i t ht
    by_cases hstop : (evalPredicate pred ⟨if idx % 2 = 0 then A else B, r idx⟩ count).2 = true
    · have hrw : driverLoop A B r pred idx count (fuel + 1)
          = [⟨if idx % 2 = 0 then A else B, r idx⟩] := by
        simp [driverLoop, hstop]
      rw [hrw] at ht
      cases i with
      | zero =>
        injection ht with h1
        rw [← h1]
        simp
      | succ i => simp at ht
    · have hrw : driverLoop A B r pred idx count (fuel + 1)
          = ⟨if idx % 2 = 0 then A else B, r idx⟩ ::
            driverLoop A B r pred (idx + 1)
              (evalPredicate pred ⟨if idx % 2 = 0 then A else B, r idx⟩ count).1 fuel := by
        simp [driverLoop, hstop]
      rw [hrw] at ht
      cases i with
      | zero =>
        injection ht with h1
        rw [← h1]
        simp
      | succ i =>
        rw [List.get?_cons_succ] at ht
        have h2 := ih (idx + 1) _ i t ht
        rw [h2]
        have harith : idx + 1 + i = idx + (i + 1) := by omega
        rw [harith]

/-- C4: for every completed dialogue session the transcript begins with
exactly one starter turn attributed to participant A carrying the
starter text, every turn at an even index is spoken by A and every turn
at an odd index by B, and, the two participants being distinct, no
participant speaks twice in a row. -/
theorem run_dialogue_alternation (A B starter : String) (reply : Nat → String)
    (pred : TerminationPredicate) (fuel : Nat) (hAB : A ≠ B) :
    (∃ rest, run_dialogue A B starter reply pred fuel = Turn.mk A starter :: rest)
    ∧ (∀ i t, (run_dialogue A B starter reply pred fuel).get? i = some t →
        t.speaker = if i % 2 = 0 then A else B)
    ∧ (∀ i t t1, (run_dialogue A B starter reply pred fuel).get? i = some t →
        (run_dialogue A B starter reply pred fuel).get? (i + 1) = some t1 →
        t.speaker ≠ t1.speaker) := by
  have hspeaker : ∀ i t,
      (run_dialogue A B starter reply pred fuel).get? i = some t →
      t.speaker = if i % 2 = 0 then A else B := by
    intro i t ht
    have h := driverLoop_speaker A B (fun j => if j = 0 then starter else reply j)
      pred (fuel + 1) 0 0 i t ht
    simpa using h
  refine ⟨?_, hspeaker, ?_⟩
  · by_cases hstop :
        (evalPredicate pred ⟨if 0 % 2 = 0 then A else B,
          if 0 = 0 then starter else reply 0⟩ 0).2 = true
    · refine ⟨[], ?_⟩
      show driverLoop A B (fun i => if i = 0 then starter else reply i) pred 0 0
        (fuel + 1) = [Turn.mk A starter]
      simp only [driverLoop]
      rw [if_pos (by simpa using hstop)]
      simp
    · refine ⟨driverLoop A B (fun i => if i = 0 then starter else reply i) pred 1
        (evalPredicate pred ⟨if 0 % 2 = 0 then A else B,
          if 0 = 0 then starter else reply 0⟩ 0).1 fuel, ?_⟩
      show driverLoop A B (fun i => if i = 0 then starter else reply i) pred 0 0
        (fuel + 1) = _
      simp only [driverLoop]
      rw [if_neg (by simpa using hstop)]
      simp
  · intro i t t1 ht ht1
    rw [hspeaker i t ht, hspeaker (i + 1) t1 ht1]
    rcases Nat.even_or_odd i with he | ho
    · have h1 : i % 2 = 0 := Nat.even_iff.mp he
      have h2 : (i + 1) % 2 = 1 := by omega
      simp [h1, h2]
      exact hAB
    · have h1 : i % 2 = 1 := Nat.odd_iff.mp ho
      have h2 : (i + 1) % 2 = 0 := by omega
      simp [h1, h2]
      exact fun hc => hAB hc.symm

theorem run_dialogue_alternation_witness :
    Turn.speaker ⟨"Bob", "x"⟩ = if 1 % 2 = 0 then "Alice" else "Bob" :=
  (run_dialogue_alternation "Alice" "Bob" "hi" (fun _ => "x")
    (TerminationPredicate.TurnBound 3) 10 (by decide)).2.1 1 ⟨"Bob", "x"⟩ (by decide)
theorem pySplitAux_ne_nil (cs : List Char) :
    ∀ acc, acc ≠ [] → pySplitAux cs acc ≠ [] := by
  induction cs with
  | nil =>
    intro acc hacc
    cases acc with
    | nil => exact absurd rfl hacc
    | cons a as => simp [pySplitAux]
  | cons c cs ih =>
    intro acc hacc
    by_cases hw : c.isWhitespace = true
    · cases acc with
      | nil => exact absurd rfl hacc
      | cons a as => simp [pySplitAux, hw]
    · simp only [pySplitAux, hw, Bool.false_eq_true, if_false]
      exact ih (c :: acc) (by simp)

theorem pySplitAux_nil_iff (cs : List Char) :
    pySplitAux cs [] = [] ↔ cs.all Char.isWhitespace = true := by
  induction cs with
  | nil => simp [pySplitAux]
  | cons c cs ih =>
    by_cases hw : c.isWhitespace = true
    · simp [pySplitAux, hw, ih]
    · simp only [pySplitAux, hw, Bool.false_eq_true, if_false, List.all_cons,
        Bool.and_eq_true]
      constructor
      · intro h
        exact absurd h (pySplitAux_ne_nil cs (c :: []) (by simp))
      · rintro ⟨h1, h2⟩
        exact h1.elim

theorem pySplit_eq_nil_iff (s : String) :
    pySplit s = [] ↔ s.data.all Char.isWhitespace = true := by
  rw [← pySplitAux_nil_iff]
  simp [pySplit]

/-- C10: the local fallback generator is partial in the situation
argument: for every situation containing at least one non-whitespace
character (hence at least one whitespace-separated word) it returns a
result record with a messages list, while for an empty or
whitespace-only situation the eager evaluation of situation.split()[0]
fails (none), so no fallback transcript is produced. -/
theorem generate_dialogue_fallback_domain
    (character1_name character2_name situation : String) (mt : Nat) (choice : Fin 3) :
    (situation.data.all Char.isWhitespace = false →
      ∃ r, generate_dialogue_fallback character1_name character2_name situation
        mt choice = some r)
    ∧ (situation.data.all Char.isWhitespace = true →
      generate_dialogue_fallback character1_name character2_name situation
        mt choice = none) := by
  constructor
  · intro hall
    cases hsp : pySplit situation with
    | nil =>
      have hw := (pySplit_eq_nil_iff situation).mp hsp
      rw [hw] at hall
      exact absurd hall (by simp)
    | cons w ws =>
      exact ⟨_, by unfold generate_dialogue_fallback; rw [hsp]⟩
  · intro hall
    have hsp := (pySplit_eq_nil_iff situation).mpr hall
    simp [generate_dialogue_fallback, hsp]

theorem generate_dialogue_fallback_domain_witness :
    (∃ r, generate_dialogue_fallback "Teacher" "Student" "Fibonacci problems" 5 0
      = some r)
    ∧ generate_dialogue_fallback "Teacher" "Student" " " 5 0 = none :=
  ⟨(generate_dialogue_fallback_domain "Teacher" "Student" "Fibonacci problems" 5 0).1
      (by decide),
   (generate_dialogue_fallback_domain "Teacher" "Student" " " 5 0).2 (by decide)⟩

/-- C7 counterexample: the fallback path is not deterministic across
runs: with the participant names and the situation held fixed, two
different outcomes of random.choice produce two different fallback
transcripts (the starter turn differs), refuting the claim that two
runs of the fallback path always produce the same fallback text. -/
theorem generate_dialogue_fallback_not_deterministic :
    generate_dialogue_fallback "Alice" "Bob" "rent money" 5 0
      ≠ generate_dialogue_fallback "Alice" "Bob" "rent money" 5 1 := by
  decide

/-- C7 amended: for fixed names and situation the fallback transcript
is determined except for the starter turn: the random choice only
selects among the three starter templates, so every turn after the
starter is identical across runs. -/
theorem generate_dialogue_fallback_tail_deterministic
    (character1_name character2_name situation : String) (mt : Nat)
    (ch1 ch2 : Fin 3) :
    (generate_dialogue_fallback character1_name character2_name situation mt ch1).map
        (fun r => r.messages.tail)
      = (generate_dialogue_fallback character1_name character2_name situation mt
          ch2).map (fun r => r.messages.tail) := by
  cases hsp : pySplit situation with
  | nil => simp [generate_dialogue_fallback, hsp]
  | cons w ws => simp [generate_dialogue_fallback, hsp]

/-- C5 counterexample: a fallback turn reaches the caller in a shape
identical to a provider-generated turn: the first message of a concrete
fallback result is exactly the record that extract_messages builds for
a genuine autogen chat-history entry with the same name and content,
and the result carries no usedFallback flag, refuting the claim that
fallback text is never returned in a shape identical to genuine
generated output. -/
theorem fallback_shape_identical_to_generated :
    (generate_dialogue_fallback "Alice" "Bob" "rent money" 5 0).map
        (fun r => r.messages.head?)
      = some (some (autogen_entry_to_msg "Alice"
          "Hello Bob, I wanted to talk about rent...")) := by
  decide

/-- C5 amended: the only marker of a fallback result is a system-role
placeholder note inserted as the second message of the transcript;
there is no usedFallback flag and the fallback assistant turns
themselves are shaped like provider-generated turns. -/
theorem fallback_marked_only_by_system_note
    (character1_name character2_name situation : String) (mt : Nat) (choice : Fin 3)
    (hsp : pySplit situation ≠ []) :
    (generate_dialogue_fallback character1_name character2_name situation mt
        choice).map (fun r => r.messages.get? 1)
      = some (some ⟨"system", none, placeholderNote⟩) := by
  cases h : pySplit situation with
  | nil => exact absurd h hsp
  | cons w ws => simp [generate_dialogue_fallback, h]

theorem fallback_marked_only_by_system_note_witness :
    (generate_dialogue_fallback "Alice" "Bob" "rent money" 5 2).map
        (fun r => r.messages.get? 1)
      = some (some ⟨"system", none, placeholderNote⟩) :=
  fallback_marked_only_by_system_note "Alice" "Bob" "rent money" 5 2 (by decide)

/-- C6 counterexample: the recovery policy is not per-turn and not
consistent across call sites: when the external generation path fails,
create_dialogue in dialog.py aborts the whole session with no fallback,
while generate_dialogue in interface_dilogue.py replaces the entire
session with the canned fallback transcript instead of substituting
fallback text for the failed turn only. -/
theorem error_policy_inconsistent :
    create_dialogue none = none
    ∧ generate_dialogue none "Alice" "Bob" "rent money" 5 0
        = generate_dialogue_fallback "Alice" "Bob" "rent money" 5 0
    ∧ generate_dialogue_fallback "Alice" "Bob" "rent money" 5 0 ≠ none :=
  ⟨rfl, rfl, by decide⟩

/-- C6 amended: on failure of the external generation path,
generate_dialogue substitutes the whole fallback transcript for the
session and returns the autogen result unchanged otherwise, while
create_dialogue has no fallback at all and propagates the failure. -/
theorem generate_dialogue_error_policy
    (character1_name character2_name situation : String) (mt : Nat) (choice : Fin 3)
    (d : DialogueResult) :
    generate_dialogue none character1_name character2_name situation mt choice
        = generate_dialogue_fallback character1_name character2_name situation mt
          choice
    ∧ generate_dialogue (some d) character1_name character2_name situation mt choice
        = some d
    ∧ create_dialogue none = none
    ∧ create_dialogue (some d) = some d :=
  ⟨rfl, rfl, rfl, rfl⟩

/-- C8 counterexample: the text rendering of dialog.py
(format_dialogue) does not elide system turns: rendering a concrete
fallback transcript produces a text that contains the system
placeholder message as a speaker: content line, so a turn with the
system role tag appears in the flattened rendering. -/
theorem format_dialogue_shows_system_turn :
    (generate_dialogue_fallback "Alice" "Bob" "rent money" 5 0).map
        (fun r => (format_dialogue r.messages).map
          (fun txt => strContains txt ("system: " ++ placeholderNote)))
      = some (some true) := by
  decide

/-- C8 amended: the downloadable text rendering of interface_dilogue.py
(format_dialogue_text) does satisfy the claim: its output is the header
followed by exactly one speaker: content line per non-system message in
transcript order, system messages elided; the format_dialogue renderer
of dialog.py instead prints every message, system turns included. -/
theorem format_dialogue_text_elides_system (msgs : List Msg)
    (character1_name character2_name situation : String) :
    format_dialogue_text msgs character1_name character2_name situation
      = "Dialogue between " ++ character1_name ++ " and " ++ character2_name
          ++ "\n" ++ "Situation: " ++ situation ++ "\n\n"
        ++ concatMap renderLine (msgs.filter (fun m => !(m.role == "system"))) := by
  have hbody : format_dialogue_text_body msgs
      = concatMap renderLine (msgs.filter (fun m => !(m.role == "system"))) := by
    induction msgs with
    | nil => rfl
    | cons m ms ih =>
      by_cases h : m.role = "system"
      · simp [format_dialogue_text_body, List.filter_cons, h, ih]
      · simp [format_dialogue_text_body, List.filter_cons, h, ih, concatMap]
  simp [format_dialogue_text, hbody]

theorem parseMsg_msgToJson (m : Msg) : parseMsg (msgToJson m) = some m := by
  cases m with
  | mk role name content =>
    cases name with
    | none => rfl
    | some n => rfl

theorem parseMsgs_map (msgs : List Msg) :
    parseMsgs (msgs.map msgToJson) = some msgs := by
  induction msgs with
  | nil => rfl
  | cons m ms ih => simp [parseMsgs, parseMsg_msgToJson, ih]

/-- C9: serialising a transcript to the structured export record (the
object with character1, character2, situation, timestamp and the
ordered message list, as save_dialogue_to_file emits it) and parsing
that serialisation back yields the identical ordered message sequence,
with order, speaker attributions and text contents preserved. -/
theorem save_parse_roundtrip (character1 character2 situation timestamp : String)
    (msgs : List Msg) :
    parseTranscript (saveRecord character1 character2 situation timestamp msgs)
      = some msgs := by
  show parseMsgs (msgs.map msgToJson) = some msgs
  exact parseMsgs_map msgs

end TalkTwin
